import Mathlib

/-!
Shallow embedding of the saloon admin backend (`src/server.js`, the
serverless variant that the deployed module exports): the appointment
data model, the Mongo-backed repository operations the route handlers
perform (`findByIdAndUpdate`, `findByIdAndDelete`, status-filtered
`find` with `sort`/`limit`), the cookie session gate, and the login
handler.  The persistent store is modelled as a list of appointment
records; a Mongo `_id` is a `Nat` and is unique in a well-formed store.
-/

namespace SaloonAdmin

/-- The `status` enum of the appointment schema:
`enum: ['pending', 'accepted', 'done']`. -/
inductive Status where
  | pending
  | accepted
  | done
  deriving DecidableEq, Repr

/-- An appointment document. `date` and `createdAt` are timestamps
(modelled as `Nat`), `time` is a string exactly as in the schema. -/
structure Appointment where
  id : Nat
  name : String
  email : String
  phone : String
  service : String
  date : Nat
  time : String
  status : Status
  createdAt : Nat
  deriving DecidableEq, Repr

/-- `Appointment.findByIdAndUpdate(id, { status }, { new: true })`:
updates the (unique) document whose `_id` matches, returns the updated
document, or `none` when no document matches.  On a list store this
rewrites the first record with the given id. -/
def findByIdAndUpdate : List Appointment → Nat → Status → Option Appointment × List Appointment
  | [], _, _ => (none, [])
  | r :: rest, i, s =>
    if r.id = i then
      (some { r with status := s }, { r with status := s } :: rest)
    else
      let p := findByIdAndUpdate rest i s
      (p.1, r :: p.2)

/-- `Appointment.findByIdAndDelete(id)`: removes the document whose
`_id` matches and returns it, or `none` when no document matches. -/
def findByIdAndDelete : List Appointment → Nat → Option Appointment × List Appointment
  | [], _ => (none, [])
  | r :: rest, i =>
    if r.id = i then (some r, rest)
    else
      let p := findByIdAndDelete rest i
      (p.1, r :: p.2)

/-- `Appointment.find({ status })`: all documents with the given status. -/
def findByStatus (store : List Appointment) (s : Status) : List Appointment :=
  store.filter (fun r => decide (r.status = s))

/-- Lexicographic comparison on the underlying character lists, the
order Mongo uses when sorting a string field. -/
def strLeAux : List Char → List Char → Bool
  | [], _ => true
  | _ :: _, [] => false
  | a :: as, b :: bs =>
    if a.toNat < b.toNat then true
    else if b.toNat < a.toNat then false
    else strLeAux as bs

/-- Lexicographic string comparison (Mongo string sort order). -/
def strLe (a b : String) : Bool := strLeAux a.data b.data

/-- Comparator for `.sort({ createdAt: -1 })`: newest created first. -/
def createdDescLe (a b : Appointment) : Bool := decide (b.createdAt ≤ a.createdAt)

/-- Comparator for `.sort({ date: 1, time: 1 })`: ascending by date,
then ascending by time. -/
def dateTimeLe (a b : Appointment) : Bool :=
  decide (a.date < b.date) || (decide (a.date = b.date) && strLe a.time b.time)

/-- `GET /api/requests` query:
`Appointment.find({ status: 'pending' }).sort({ createdAt: -1 })`. -/
def getRequests (store : List Appointment) : List Appointment :=
  (findByStatus store Status.pending).mergeSort createdDescLe

/-- `GET /api/appointments` query:
`Appointment.find({ status: 'accepted' }).sort({ date: 1, time: 1 })`. -/
def getAppointments (store : List Appointment) : List Appointment :=
  (findByStatus store Status.accepted).mergeSort dateTimeLe

/-- `GET /api/recent-appointments` query:
`Appointment.find({ status: 'done' }).sort({ createdAt: -1 }).limit(50)`. -/
def getRecentAppointments (store : List Appointment) : List Appointment :=
  ((findByStatus store Status.done).mergeSort createdDescLe).take 50

/-- The JSON response body an API handler produces, together with its
HTTP status code (`res.json` defaults to 200; `res.status(404)` and
`res.status(500)` are explicit in the handlers). -/
inductive ApiResult where
  | okAppointment (appointment : Appointment)
  | okPlain
  | okList (appointments : List Appointment)
  | notFound (message : String)
  | serverError (message : String)
  deriving DecidableEq, Repr

/-- The HTTP status code carried by each response shape. -/
def ApiResult.httpStatus : ApiResult → Nat
  | .okAppointment _ => 200
  | .okPlain => 200
  | .okList _ => 200
  | .notFound _ => 404
  | .serverError _ => 500

/-- `POST /api/requests/:id/accept` handler body.  `dbThrows` models the
awaited store call raising, which the try/catch in the handler turns
into a 500. -/
def acceptHandler (dbThrows : Bool) (store : List Appointment) (i : Nat) :
    ApiResult × List Appointment :=
  if dbThrows then (.serverError "Failed to accept appointment", store)
  else
    match findByIdAndUpdate store i Status.accepted with
    | (none, s) => (.notFound "Appointment not found", s)
    | (some a, s) => (.okAppointment a, s)

/-- `POST /api/appointments/:id/done` handler body. -/
def doneHandler (dbThrows : Bool) (store : List Appointment) (i : Nat) :
    ApiResult × List Appointment :=
  if dbThrows then (.serverError "Failed to mark appointment as done", store)
  else
    match findByIdAndUpdate store i Status.done with
    | (none, s) => (.notFound "Appointment not found", s)
    | (some a, s) => (.okAppointment a, s)

/-- `POST /api/requests/:id/reject` handler body. -/
def rejectHandler (dbThrows : Bool) (store : List Appointment) (i : Nat) :
    ApiResult × List Appointment :=
  if dbThrows then (.serverError "Failed to reject appointment", store)
  else
    match findByIdAndDelete store i with
    | (none, s) => (.notFound "Appointment not found", s)
    | (some _, s) => (.okPlain, s)

/-- The accept route behind `ensureDbConnection`: a failed connection
short-circuits with a 500 before the handler runs. -/
def acceptRoute (connOk dbThrows : Bool) (store : List Appointment) (i : Nat) :
    ApiResult × List Appointment :=
  if connOk then acceptHandler dbThrows store i
  else (.serverError "Database connection failed", store)

/-- Decision of the `requireAuth` middleware. -/
inductive GateDecision where
  | proceed
  | redirect (location : String)
  deriving DecidableEq, Repr

/-- `requireAuth`: proceed iff `req.cookies.isLoggedIn === 'true'`,
otherwise `res.redirect('/login')`.  `none` is an absent cookie. -/
def requireAuth (isLoggedIn : Option String) : GateDecision :=
  if isLoggedIn = some "true" then .proceed else .redirect "/login"

/-- Outcome of running a gated route: either the result of the handler
or the redirect issued by the gate. -/
inductive RouteResponse (α : Type) where
  | handled (result : α)
  | redirected (location : String)
  deriving DecidableEq

/-- A route with `requireAuth` in front of its handler. -/
def gatedRoute {α : Type} (isLoggedIn : Option String) (handler : Unit → α) :
    RouteResponse α :=
  match requireAuth isLoggedIn with
  | .proceed => .handled (handler ())
  | .redirect l => .redirected l

/-- `POST /api/requests/:id/accept` with its full middleware chain
`requireAuth, ensureDbConnection, handler`. -/
def apiAcceptRoute (isLoggedIn : Option String) (connOk dbThrows : Bool)
    (store : List Appointment) (i : Nat) :
    RouteResponse (ApiResult × List Appointment) :=
  gatedRoute isLoggedIn (fun _ => acceptRoute connOk dbThrows store i)

/-- A configured admin credential pair. -/
structure AdminUser where
  username : String
  password : String
  deriving DecidableEq, Repr

/-- The environment variables the login route reads (`none` = unset). -/
structure Env where
  ADMIN_USERNAME_1 : Option String
  ADMIN_PASSWORD_1 : Option String
  ADMIN_USERNAME_2 : Option String
  ADMIN_PASSWORD_2 : Option String
  NODE_ENV : Option String
  deriving DecidableEq, Repr

/-- JavaScript `env.X || 'default'`: unset and the empty string are
falsy, so both fall through to the default. -/
def jsOrDefault (v : Option String) (d : String) : String :=
  match v with
  | none => d
  | some s => if s = "" then d else s

/-- The `ADMIN_USERS` array built inside `POST /login`. -/
def adminUsers (env : Env) : List AdminUser :=
  [ { username := jsOrDefault env.ADMIN_USERNAME_1 "admin1",
      password := jsOrDefault env.ADMIN_PASSWORD_1 "password1" },
    { username := jsOrDefault env.ADMIN_USERNAME_2 "admin2",
      password := jsOrDefault env.ADMIN_PASSWORD_2 "password2" } ]

/-- A `Set-Cookie` issued by `res.cookie`. -/
structure SetCookie where
  name : String
  value : String
  httpOnly : Bool
  secure : Bool
  maxAge : Nat
  sameSite : String
  deriving DecidableEq, Repr

/-- The response of `POST /login`. -/
structure LoginResponse where
  status : Nat
  success : Bool
  message : Option String
  setCookie : Option SetCookie
  deriving DecidableEq, Repr

/-- `POST /login` handler: `ADMIN_USERS.find(admin => admin.username ===
username && admin.password === password)`; on a match set the session
cookie and `{ success: true }`, otherwise `401 { success: false,
message: 'Invalid credentials' }`. -/
def loginHandler (env : Env) (username password : String) : LoginResponse :=
  match (adminUsers env).find?
      (fun a => decide (a.username = username) && decide (a.password = password)) with
  | some _ =>
    { status := 200, success := true, message := none,
      setCookie := some
        { name := "isLoggedIn", value := "true", httpOnly := true,
          secure := decide (env.NODE_ENV = some "production"),
          maxAge := 24 * 60 * 60 * 1000, sameSite := "lax" } }
  | none =>
    { status := 401, success := false,
      message := some "Invalid credentials", setCookie := none }

/-- The response of a page route: a redirect or a served file. -/
inductive PageResponse where
  | redirect (location : String)
  | sendFile (path : String)
  deriving DecidableEq, Repr

/-- `GET /login` handler: logged-in browsers are bounced to `/home`,
everyone else gets the login page. -/
def getLoginHandler (isLoggedIn : Option String) : PageResponse :=
  if isLoggedIn = some "true" then .redirect "/home"
  else .sendFile "pages/login/login.html"

/-- A sample pending request record. -/
def sampleA : Appointment :=
  { id := 1, name := "Ann", email := "ann@x", phone := "111", service := "cut",
    date := 20, time := "10:00", status := Status.pending, createdAt := 3 }

/-- A sample completed (done) appointment record. -/
def sampleB : Appointment :=
  { id := 2, name := "Bob", email := "bob@x", phone := "222", service := "dye",
    date := 15, time := "09:30", status := Status.done, createdAt := 7 }

/-- A sample accepted appointment record. -/
def sampleC : Appointment :=
  { id := 3, name := "Cam", email := "cam@x", phone := "333", service := "trim",
    date := 15, time := "11:00", status := Status.accepted, createdAt := 5 }

theorem findByIdAndUpdate_of_not_mem (store : List Appointment) (i : Nat) (s : Status)
    (h : ∀ r ∈ store, r.id ≠ i) : findByIdAndUpdate store i s = (none, store) := by
  induction store with
  | nil => rfl
  | cons x rest ih =>
    have hx : x.id ≠ i := h x (by simp)
    simp [findByIdAndUpdate, hx, ih (fun r hr => h r (by simp [hr]))]

theorem findByIdAndUpdate_eq_append (pre post : List Appointment) (r : Appointment) (s : Status)
    (hpre : ∀ x ∈ pre, x.id ≠ r.id) :
    findByIdAndUpdate (pre ++ r :: post) r.id s
      = (some { r with status := s }, pre ++ { r with status := s } :: post) := by
  induction pre with
  | nil => simp [findByIdAndUpdate]
  | cons x pre ih =>
    have hx : x.id ≠ r.id := hpre x (by simp)
    simp [findByIdAndUpdate, hx, ih (fun y hy => hpre y (by simp [hy]))]

theorem mem_findByIdAndUpdate_snd {store : List Appointment} {i : Nat} {s : Status}
    {r' : Appointment} (h : r' ∈ (findByIdAndUpdate store i s).2) :
    r' ∈ store ∨ r'.status = s := by
  induction store with
  | nil => simp [findByIdAndUpdate] at h
  | cons x rest ih =>
    by_cases hx : x.id = i
    · simp [findByIdAndUpdate, hx] at h
      rcases h with h | h
      · right; rw [h]
      · exact Or.inl (by simp [h])
    · simp [findByIdAndUpdate, hx] at h
      rcases h with h | h
      · exact Or.inl (by simp [h])
      · rcases ih h with h' | h'
        · exact Or.inl (by simp [h'])
        · exact Or.inr h'

theorem length_findByIdAndUpdate_snd (store : List Appointment) (i : Nat) (s : Status) :
    (findByIdAndUpdate store i s).2.length = store.length := by
  induction store with
  | nil => rfl
  | cons x rest ih =>
    by_cases hx : x.id = i <;> simp [findByIdAndUpdate, hx, ih]

theorem findByIdAndUpdate_fst_eq_none (store : List Appointment) (i : Nat) (s : Status) :
    (findByIdAndUpdate store i s).1 = none ↔ ∀ r ∈ store, r.id ≠ i := by
  induction store with
  | nil => simp [findByIdAndUpdate]
  | cons x rest ih =>
    by_cases hx : x.id = i <;> simp [findByIdAndUpdate, hx, ih]

theorem findByIdAndDelete_eq_append (pre post : List Appointment) (r : Appointment)
    (hpre : ∀ x ∈ pre, x.id ≠ r.id) :
    findByIdAndDelete (pre ++ r :: post) r.id = (some r, pre ++ post) := by
  induction pre with
  | nil => simp [findByIdAndDelete]
  | cons x pre ih =>
    have hx : x.id ≠ r.id := hpre x (by simp)
    simp [findByIdAndDelete, hx, ih (fun y hy => hpre y (by simp [hy]))]

theorem findByIdAndDelete_fst_eq_none (store : List Appointment) (i : Nat) :
    (findByIdAndDelete store i).1 = none ↔ ∀ r ∈ store, r.id ≠ i := by
  induction store with
  | nil => simp [findByIdAndDelete]
  | cons x rest ih =>
    by_cases hx : x.id = i <;> simp [findByIdAndDelete, hx, ih]

theorem mem_findByIdAndDelete_snd {store : List Appointment} {i : Nat}
    {r' : Appointment} (h : r' ∈ (findByIdAndDelete store i).2) : r' ∈ store := by
  induction store with
  | nil => simp [findByIdAndDelete] at h
  | cons x rest ih =>
    by_cases hx : x.id = i
    · simp [findByIdAndDelete, hx] at h
      exact List.mem_cons_of_mem x h
    · simp [findByIdAndDelete, hx] at h
      rcases h with h | h
      · simp [h]
      · exact List.mem_cons_of_mem x (ih h)

theorem findByIdAndDelete_snd_id {store : List Appointment} {i : Nat}
    (hnodup : (store.map (fun r => r.id)).Nodup) :
    ∀ r' ∈ (findByIdAndDelete store i).2, r'.id ≠ i := by
  induction store with
  | nil => simp [findByIdAndDelete]
  | cons x rest ih =>
    rw [List.map_cons, List.nodup_cons] at hnodup
    by_cases hx : x.id = i
    · intro r' hr'
      simp [findByIdAndDelete, hx] at hr'
      intro hid
      exact hnodup.1 (by
        rw [List.mem_map]
        exact ⟨r', hr', by rw [hid, hx]⟩)
    · intro r' hr'
      simp [findByIdAndDelete, hx] at hr'
      rcases hr' with hr' | hr'
      · rw [hr']; exact hx
      · exact ih hnodup.2 r' hr'

theorem strLeAux_cons (a b : Char) (as bs : List Char) :
    strLeAux (a :: as) (b :: bs)
      = (decide (a.toNat < b.toNat) || (decide (a.toNat = b.toNat) && strLeAux as bs)) := by
  simp only [strLeAux]
  by_cases h1 : a.toNat < b.toNat
  · simp [h1]
  · by_cases h2 : b.toNat < a.toNat
    · have hne : a.toNat ≠ b.toNat := by omega
      simp [h1, h2, hne]
    · have heq : a.toNat = b.toNat := by omega
      simp [h1, h2, heq]

theorem strLeAux_total (as bs : List Char) : (strLeAux as bs || strLeAux bs as) = true := by
  induction as generalizing bs with
  | nil => simp [strLeAux]
  | cons a as ih =>
    cases bs with
    | nil => simp [strLeAux]
    | cons b bs =>
      rw [strLeAux_cons, strLeAux_cons]
      rcases Nat.lt_trichotomy a.toNat b.toNat with h | h | h
      · simp [h]
      · have hn : ¬ a.toNat < b.toNat := by omega
        have hn' : ¬ b.toNat < a.toNat := by omega
        simpa [h, hn, hn'] using ih bs
      · simp [h]

theorem strLeAux_trans (as bs cs : List Char) (h1 : strLeAux as bs = true)
    (h2 : strLeAux bs cs = true) : strLeAux as cs = true := by
  induction as generalizing bs cs with
  | nil => simp [strLeAux]
  | cons a as ih =>
    cases bs with
    | nil => simp [strLeAux] at h1
    | cons b bs =>
      cases cs with
      | nil => simp [strLeAux] at h2
      | cons c cs =>
        rw [strLeAux_cons] at h1 h2 ⊢
        simp only [Bool.or_eq_true, Bool.and_eq_true, decide_eq_true_eq] at h1 h2 ⊢
        rcases h1 with h1 | ⟨h1e, h1r⟩
        · rcases h2 with h2 | ⟨h2e, h2r⟩
          · exact Or.inl (by omega)
          · exact Or.inl (by omega)
        · rcases h2 with h2 | ⟨h2e, h2r⟩
          · exact Or.inl (by omega)
          · exact Or.inr ⟨by omega, ih bs cs h1r h2r⟩

theorem createdDescLe_trans (a b c : Appointment) (h1 : createdDescLe a b = true)
    (h2 : createdDescLe b c = true) : createdDescLe a c = true := by
  simp only [createdDescLe, decide_eq_true_eq] at h1 h2 ⊢
  omega

theorem createdDescLe_total (a b : Appointment) :
    (createdDescLe a b || createdDescLe b a) = true := by
  simp only [createdDescLe, Bool.or_eq_true, decide_eq_true_eq]
  omega

theorem dateTimeLe_trans (a b c : Appointment) (h1 : dateTimeLe a b = true)
    (h2 : dateTimeLe b c = true) : dateTimeLe a c = true := by
  simp only [dateTimeLe, strLe, Bool.or_eq_true, Bool.and_eq_true, decide_eq_true_eq] at h1 h2 ⊢
  rcases h1 with h1 | ⟨h1e, h1r⟩
  · rcases h2 with h2 | ⟨h2e, h2r⟩
    · exact Or.inl (by omega)
    · exact Or.inl (by omega)
  · rcases h2 with h2 | ⟨h2e, h2r⟩
    · exact Or.inl (by omega)
    · exact Or.inr ⟨by omega, strLeAux_trans _ _ _ h1r h2r⟩

theorem dateTimeLe_total (a b : Appointment) :
    (dateTimeLe a b || dateTimeLe b a) = true := by
  simp only [dateTimeLe, strLe, Bool.or_eq_true, Bool.and_eq_true, decide_eq_true_eq]
  rcases Nat.lt_trichotomy a.date b.date with h | h | h
  · exact Or.inl (Or.inl h)
  · have := strLeAux_total a.time.data b.time.data
    simp only [Bool.or_eq_true] at this
    rcases this with ht | ht
    · exact Or.inl (Or.inr ⟨h, ht⟩)
    · exact Or.inr (Or.inr ⟨h.symm, ht⟩)
  · exact Or.inr (Or.inl h)

theorem mem_findByStatus (store : List Appointment) (s : Status) (r : Appointment) :
    r ∈ findByStatus store s ↔ r ∈ store ∧ r.status = s := by
  simp [findByStatus, List.mem_filter]

theorem mem_getRequests (store : List Appointment) (r : Appointment) :
    r ∈ getRequests store ↔ r ∈ store ∧ r.status = Status.pending := by
  rw [getRequests, List.mem_mergeSort, mem_findByStatus]

theorem mem_getAppointments (store : List Appointment) (r : Appointment) :
    r ∈ getAppointments store ↔ r ∈ store ∧ r.status = Status.accepted := by
  rw [getAppointments, List.mem_mergeSort, mem_findByStatus]

theorem mem_getRecentAppointments (store : List Appointment) (r : Appointment)
    (h : r ∈ getRecentAppointments store) : r ∈ store ∧ r.status = Status.done := by
  rw [getRecentAppointments] at h
  have := List.take_subset 50 _ h
  rw [List.mem_mergeSort, mem_findByStatus] at this
  exact this

theorem getRequests_pairwise (store : List Appointment) :
    (getRequests store).Pairwise (fun a b => b.createdAt ≤ a.createdAt) := by
  have h := List.sorted_mergeSort
    createdDescLe_trans createdDescLe_total (findByStatus store Status.pending)
  exact h.imp (fun {a b} hab => by simpa [createdDescLe] using hab)

theorem getAppointments_pairwise (store : List Appointment) :
    (getAppointments store).Pairwise (fun a b =>
      a.date < b.date ∨ (a.date = b.date ∧ strLe a.time b.time = true)) := by
  have h := List.sorted_mergeSort
    dateTimeLe_trans dateTimeLe_total (findByStatus store Status.accepted)
  exact h.imp (fun {a b} hab => by
    simpa [dateTimeLe, Bool.or_eq_true, Bool.and_eq_true, decide_eq_true_eq] using hab)

theorem getRecentAppointments_pairwise (store : List Appointment) :
    (getRecentAppointments store).Pairwise (fun a b => b.createdAt ≤ a.createdAt) := by
  have h := List.sorted_mergeSort
    createdDescLe_trans createdDescLe_total (findByStatus store Status.done)
  have h' := h.sublist (List.take_sublist 50 _)
  exact h'.imp (fun {a b} hab => by simpa [createdDescLe] using hab)

theorem getRecentAppointments_length_le (store : List Appointment) :
    (getRecentAppointments store).length ≤ 50 := by
  rw [getRecentAppointments, List.length_take]
  exact min_le_left _ _

theorem acceptHandler_snd (store : List Appointment) (i : Nat) :
    (acceptHandler false store i).2 = (findByIdAndUpdate store i Status.accepted).2 := by
  rcases hf : findByIdAndUpdate store i Status.accepted with ⟨fst, snd⟩
  cases fst <;> simp [acceptHandler, hf]

theorem doneHandler_snd (store : List Appointment) (i : Nat) :
    (doneHandler false store i).2 = (findByIdAndUpdate store i Status.done).2 := by
  rcases hf : findByIdAndUpdate store i Status.done with ⟨fst, snd⟩
  cases fst <;> simp [doneHandler, hf]

theorem rejectHandler_snd (store : List Appointment) (i : Nat) :
    (rejectHandler false store i).2 = (findByIdAndDelete store i).2 := by
  rcases hf : findByIdAndDelete store i with ⟨fst, snd⟩
  cases fst <;> simp [rejectHandler, hf]

/-- C2: the session gate proceeds exactly when the `isLoggedIn` cookie is the
string `"true"`; any other value or an absent cookie yields a redirect to
`/login`, and the API routes under the gate get the same redirect. -/
theorem C2_requireAuth_gate (c : Option String) (connOk dbThrows : Bool)
    (store : List Appointment) (i : Nat) :
    (requireAuth c = GateDecision.proceed ↔ c = some "true") ∧
    (c ≠ some "true" →
      requireAuth c = GateDecision.redirect "/login" ∧
      apiAcceptRoute c connOk dbThrows store i = RouteResponse.redirected "/login") ∧
    (c = some "true" →
      apiAcceptRoute c connOk dbThrows store i
        = RouteResponse.handled (acceptRoute connOk dbThrows store i)) := by
  by_cases h : c = some "true" <;>
    simp [requireAuth, apiAcceptRoute, gatedRoute, h]

/-- C2 witness: an absent cookie is redirected to `/login` on the accept API
route, and the `"true"` cookie proceeds. -/
theorem C2_requireAuth_gate_witness :
    apiAcceptRoute none true false [] 1 = RouteResponse.redirected "/login" ∧
    requireAuth (some "true") = GateDecision.proceed :=
  ⟨((C2_requireAuth_gate none true false [] 1).2.1 (by simp)).2,
   (C2_requireAuth_gate (some "true") true false [] 1).1.mpr rfl⟩

/-- C10: `GET /login` redirects to `/home` exactly when the `isLoggedIn`
cookie equals `"true"`; otherwise it serves the login page. -/
theorem C10_getLogin (c : Option String) :
    (getLoginHandler c = PageResponse.redirect "/home" ↔ c = some "true") ∧
    (c ≠ some "true" → getLoginHandler c = PageResponse.sendFile "pages/login/login.html") := by
  by_cases h : c = some "true" <;> simp [getLoginHandler, h]

/-- C10 witness: cookie `"true"` is bounced to `/home`; an absent cookie gets
the login page. -/
theorem C10_getLogin_witness :
    getLoginHandler (some "true") = PageResponse.redirect "/home" ∧
    getLoginHandler none = PageResponse.sendFile "pages/login/login.html" :=
  ⟨(C10_getLogin (some "true")).1.mpr rfl, (C10_getLogin none).2 (by simp)⟩

/-- C3: login succeeds with the 24-hour `isLoggedIn=true` cookie (http-only,
secure only in production, lax same-site) exactly on an exact credential
match; otherwise it is a 401 with a generic message and no cookie. -/
theorem C3_login (env : Env) (u p : String) :
    ((∃ a ∈ adminUsers env, a.username = u ∧ a.password = p) →
      loginHandler env u p =
        { status := 200, success := true, message := none,
          setCookie := some
            { name := "isLoggedIn", value := "true", httpOnly := true,
              secure := decide (env.NODE_ENV = some "production"),
              maxAge := 24 * 60 * 60 * 1000, sameSite := "lax" } }) ∧
    (¬ (∃ a ∈ adminUsers env, a.username = u ∧ a.password = p) →
      loginHandler env u p =
        { status := 401, success := false,
          message := some "Invalid credentials", setCookie := none }) := by
  constructor
  · intro h
    rcases hf : (adminUsers env).find?
        (fun a => decide (a.username = u) && decide (a.password = p)) with _ | a
    · exfalso
      rw [List.find?_eq_none] at hf
      obtain ⟨a, ha, hu, hp⟩ := h
      exact absurd (by simp [hu, hp]) (hf a ha)
    · simp [loginHandler, hf]
  · intro h
    have hf : (adminUsers env).find?
        (fun a => decide (a.username = u) && decide (a.password = p)) = none := by
      rw [List.find?_eq_none]
      intro a ha hcontra
      simp only [Bool.and_eq_true, decide_eq_true_eq] at hcontra
      exact h ⟨a, ha, hcontra⟩
    simp [loginHandler, hf]

/-- C3 witness: with all env vars unset, the default pair
(`admin1`, `password1`) logs in and a wrong password gets a 401 without a
cookie. -/
theorem C3_login_witness :
    loginHandler ⟨none, none, none, none, none⟩ "admin1" "password1" =
      { status := 200, success := true, message := none,
        setCookie := some
          { name := "isLoggedIn", value := "true", httpOnly := true,
            secure := false, maxAge := 24 * 60 * 60 * 1000, sameSite := "lax" } } ∧
    loginHandler ⟨none, none, none, none, none⟩ "admin1" "oops" =
      { status := 401, success := false,
        message := some "Invalid credentials", setCookie := none } :=
  ⟨(C3_login ⟨none, none, none, none, none⟩ "admin1" "password1").1
      ⟨{ username := "admin1", password := "password1" }, by decide, rfl, rfl⟩,
   (C3_login ⟨none, none, none, none, none⟩ "admin1" "oops").2 (by decide)⟩

/-- C4: accepting an id that resolves to no record returns 404 and leaves the
store unchanged. -/
theorem C4_accept_missing (store : List Appointment) (i : Nat)
    (h : ∀ r ∈ store, r.id ≠ i) :
    acceptHandler false store i = (ApiResult.notFound "Appointment not found", store) := by
  simp [acceptHandler, findByIdAndUpdate_of_not_mem store i Status.accepted h]

/-- C4 witness: accepting id 2 on a store holding only id 1 is a 404 and the
store is untouched. -/
theorem C4_accept_missing_witness :
    acceptHandler false [sampleA] 2
      = (ApiResult.notFound "Appointment not found", [sampleA]) :=
  C4_accept_missing [sampleA] 2 (by decide)

/-- C1 counterexample: the store holds a single `done` record, yet the accept
operation succeeds and moves its status back to `accepted`. -/
theorem C1_counterexample :
    sampleB.status = Status.done ∧
    acceptHandler false [sampleB] 2
      = (ApiResult.okAppointment { sampleB with status := Status.accepted },
         [{ sampleB with status := Status.accepted }]) := by decide

/-- C1 amended: accept and complete never set the status of any record back
to `pending` (any pending record after the operation was already in the
store unchanged), and they neither create nor delete records; but the
updates are unconditional on the current status, so `done` records can
return to `accepted`. -/
theorem C1_amended (store : List Appointment) (i : Nat) :
    (∀ r' ∈ (acceptHandler false store i).2, r'.status = Status.pending → r' ∈ store) ∧
    (∀ r' ∈ (doneHandler false store i).2, r'.status = Status.pending → r' ∈ store) ∧
    (acceptHandler false store i).2.length = store.length ∧
    (doneHandler false store i).2.length = store.length := by
  refine ⟨?_, ?_, ?_, ?_⟩
  · intro r' hr' hp
    rw [acceptHandler_snd] at hr'
    rcases mem_findByIdAndUpdate_snd hr' with h | h
    · exact h
    · rw [hp] at h; exact absurd h (by simp)
  · intro r' hr' hp
    rw [doneHandler_snd] at hr'
    rcases mem_findByIdAndUpdate_snd hr' with h | h
    · exact h
    · rw [hp] at h; exact absurd h (by simp)
  · rw [acceptHandler_snd]; exact length_findByIdAndUpdate_snd store i Status.accepted
  · rw [doneHandler_snd]; exact length_findByIdAndUpdate_snd store i Status.done

/-- C1 amended witness: after accepting id 2, the untouched pending record is
still one of the originals and the store size is unchanged. -/
theorem C1_amended_witness :
    sampleA ∈ [sampleA, sampleB] ∧
    (acceptHandler false [sampleA, sampleB] 2).2.length = 2 :=
  ⟨(C1_amended [sampleA, sampleB] 2).1 sampleA (by decide) (by decide),
   ((C1_amended [sampleA, sampleB] 2).2.2.1).trans (by decide)⟩

/-- C5 counterexample: `sampleB` is stored with a non-pending status, and
accept still sets it to `accepted` and reports success. -/
theorem C5_counterexample :
    sampleB ∈ [sampleA, sampleB] ∧ sampleB.status ≠ Status.pending ∧
    acceptHandler false [sampleA, sampleB] 2
      = (ApiResult.okAppointment { sampleB with status := Status.accepted },
         [sampleA, { sampleB with status := Status.accepted }]) := by decide

/-- C5 amended: accept requires no `pending` precondition — it sets the
status of the targeted record to `accepted` whatever its current status
is — and signals not-found exactly for ids that resolve to no record. -/
theorem C5_amended (store : List Appointment) (i : Nat) :
    ((∀ r ∈ store, r.id ≠ i) →
      acceptHandler false store i = (ApiResult.notFound "Appointment not found", store)) ∧
    (∀ pre r post, store = pre ++ r :: post → r.id = i → (∀ x ∈ pre, x.id ≠ i) →
      acceptHandler false store i
        = (ApiResult.okAppointment { r with status := Status.accepted },
           pre ++ { r with status := Status.accepted } :: post)) := by
  constructor
  · intro h
    simp [acceptHandler, findByIdAndUpdate_of_not_mem store i Status.accepted h]
  · intro pre r post hstore hid hpre
    subst hstore
    subst hid
    simp [acceptHandler, findByIdAndUpdate_eq_append pre post r Status.accepted hpre]

/-- C5 amended witness: accepting the stored done record id 2 succeeds and
sets it to accepted; accepting an absent id 5 is a 404 with no change. -/
theorem C5_amended_witness :
    acceptHandler false [sampleA, sampleB] 2
      = (ApiResult.okAppointment { sampleB with status := Status.accepted },
         [sampleA, { sampleB with status := Status.accepted }]) ∧
    acceptHandler false [sampleB] 5
      = (ApiResult.notFound "Appointment not found", [sampleB]) :=
  ⟨(C5_amended [sampleA, sampleB] 2).2 [sampleA] sampleB [] rfl rfl (by decide),
   (C5_amended [sampleB] 5).1 (by decide)⟩

/-- C9: a successful accept or complete rewrites exactly the targeted record,
changing only its status field; every other record and every other field is
unchanged, and the updated record is returned. -/
theorem C9_update_frame (pre post : List Appointment) (r : Appointment)
    (hpre : ∀ x ∈ pre, x.id ≠ r.id) :
    acceptHandler false (pre ++ r :: post) r.id
      = (ApiResult.okAppointment { r with status := Status.accepted },
         pre ++ { r with status := Status.accepted } :: post) ∧
    doneHandler false (pre ++ r :: post) r.id
      = (ApiResult.okAppointment { r with status := Status.done },
         pre ++ { r with status := Status.done } :: post) ∧
    (∀ s : Status,
      ({ r with status := s } : Appointment).id = r.id ∧
      ({ r with status := s } : Appointment).name = r.name ∧
      ({ r with status := s } : Appointment).email = r.email ∧
      ({ r with status := s } : Appointment).phone = r.phone ∧
      ({ r with status := s } : Appointment).service = r.service ∧
      ({ r with status := s } : Appointment).date = r.date ∧
      ({ r with status := s } : Appointment).time = r.time ∧
      ({ r with status := s } : Appointment).createdAt = r.createdAt) := by
  refine ⟨?_, ?_, fun s => ⟨rfl, rfl, rfl, rfl, rfl, rfl, rfl, rfl⟩⟩
  · simp [acceptHandler, findByIdAndUpdate_eq_append pre post r Status.accepted hpre]
  · simp [doneHandler, findByIdAndUpdate_eq_append pre post r Status.done hpre]

/-- C9 witness: accepting and completing id 3 in a three-record store rewrite
only the status of the middle record. -/
theorem C9_update_frame_witness :
    acceptHandler false [sampleA, sampleC, sampleB] 3
      = (ApiResult.okAppointment { sampleC with status := Status.accepted },
         [sampleA, { sampleC with status := Status.accepted }, sampleB]) ∧
    doneHandler false [sampleA, sampleC, sampleB] 3
      = (ApiResult.okAppointment { sampleC with status := Status.done },
         [sampleA, { sampleC with status := Status.done }, sampleB]) :=
  ⟨(C9_update_frame [sampleA] [sampleB] sampleC (by decide)).1,
   (C9_update_frame [sampleA] [sampleB] sampleC (by decide)).2.1⟩

/-- C6: reject deletes the record with the given id unconditionally —
no status precondition — answers 404 exactly when no record has that id, and
after a delete no listByStatus query returns a record with that id. -/
theorem C6_reject (store : List Appointment) (i : Nat)
    (hnodup : (store.map (fun r => r.id)).Nodup) :
    ((rejectHandler false store i).1 = ApiResult.notFound "Appointment not found" ↔
      ∀ r ∈ store, r.id ≠ i) ∧
    (∀ pre r post, store = pre ++ r :: post → r.id = i → (∀ x ∈ pre, x.id ≠ i) →
      rejectHandler false store i = (ApiResult.okPlain, pre ++ post)) ∧
    (∀ r', (r' ∈ getRequests (rejectHandler false store i).2 ∨
            r' ∈ getAppointments (rejectHandler false store i).2 ∨
            r' ∈ getRecentAppointments (rejectHandler false store i).2) →
      r'.id ≠ i) := by
  refine ⟨?_, ?_, ?_⟩
  · rcases hf : findByIdAndDelete store i with ⟨fst, snd⟩
    cases fst with
    | none =>
      have h := (findByIdAndDelete_fst_eq_none store i).mp (by rw [hf])
      simp only [rejectHandler, Bool.false_eq_true, if_false, hf]
      simpa using h
    | some a =>
      have h : ¬ ∀ r ∈ store, r.id ≠ i := by
        intro hall
        have := (findByIdAndDelete_fst_eq_none store i).mpr hall
        rw [hf] at this
        exact absurd this (by simp)
      simp [rejectHandler, hf, h]
  · intro pre r post hstore hid hpre
    subst hstore
    subst hid
    simp [rejectHandler, findByIdAndDelete_eq_append pre post r hpre]
  · intro r' h
    have hid := findByIdAndDelete_snd_id (i := i) hnodup
    rw [← rejectHandler_snd] at hid
    rcases h with h | h | h
    · exact hid r' ((mem_getRequests _ r').mp h).1
    · exact hid r' ((mem_getAppointments _ r').mp h).1
    · exact hid r' (mem_getRecentAppointments _ r' h).1

/-- C6 witness: rejecting the (pending) record id 1 deletes it, and
rejecting an absent id 9 is a 404. -/
theorem C6_reject_witness :
    rejectHandler false [sampleA, sampleB] 1 = (ApiResult.okPlain, [sampleB]) ∧
    (rejectHandler false [sampleA, sampleB] 9).1
      = ApiResult.notFound "Appointment not found" :=
  ⟨(C6_reject [sampleA, sampleB] 1 (by decide)).2.1 [] sampleA [sampleB] rfl rfl
      (by intro x hx; exact absurd hx (by simp)),
   (C6_reject [sampleA, sampleB] 9 (by decide)).1.mpr (by decide)⟩

/-- C7: each listing endpoint returns exactly the records of its status, in
its order — pending newest-created-first, accepted ascending by (date, time),
done newest-created-first and capped at 50 (exactly all of them whenever at
most 50 exist). -/
theorem C7_listByStatus (store : List Appointment) :
    (∀ r, r ∈ getRequests store ↔ r ∈ store ∧ r.status = Status.pending) ∧
    (getRequests store).Pairwise (fun a b => b.createdAt ≤ a.createdAt) ∧
    (∀ r, r ∈ getAppointments store ↔ r ∈ store ∧ r.status = Status.accepted) ∧
    (getAppointments store).Pairwise (fun a b =>
      a.date < b.date ∨ (a.date = b.date ∧ strLe a.time b.time = true)) ∧
    (∀ r, r ∈ getRecentAppointments store → r ∈ store ∧ r.status = Status.done) ∧
    (getRecentAppointments store).Pairwise (fun a b => b.createdAt ≤ a.createdAt) ∧
    (getRecentAppointments store).length ≤ 50 ∧
    ((findByStatus store Status.done).length ≤ 50 →
      ∀ r, r ∈ getRecentAppointments store ↔ r ∈ store ∧ r.status = Status.done) := by
  refine ⟨mem_getRequests store, getRequests_pairwise store,
    mem_getAppointments store, getAppointments_pairwise store,
    fun r => mem_getRecentAppointments store r,
    getRecentAppointments_pairwise store,
    getRecentAppointments_length_le store, ?_⟩
  intro h r
  rw [getRecentAppointments,
    List.take_of_length_le (by rw [List.length_mergeSort]; exact h),
    List.mem_mergeSort, mem_findByStatus]

/-- C7 witness: on a concrete three-record store the pending record is listed
by the requests query, the done listing holds at most 50 records, and the done
record is returned by the recent query. -/
theorem C7_listByStatus_witness :
    sampleA ∈ getRequests [sampleA, sampleB, sampleC] ∧
    (getRecentAppointments [sampleA, sampleB, sampleC]).length ≤ 50 ∧
    sampleB ∈ getRecentAppointments [sampleA, sampleB, sampleC] :=
  ⟨((C7_listByStatus [sampleA, sampleB, sampleC]).1 sampleA).mpr (by decide),
   (C7_listByStatus [sampleA, sampleB, sampleC]).2.2.2.2.2.2.1,
   (((C7_listByStatus [sampleA, sampleB, sampleC]).2.2.2.2.2.2.2 (by decide)
      sampleB)).mpr (by decide)⟩

/-- C8: behind the gate, the outcome of the accept route maps to exactly one
of 200 (success, with the record), 404 (no such id) or 500 (connection or
storage failure); the handler is total, so no error escapes unhandled. -/
theorem C8_outcome_mapping (connOk dbThrows : Bool) (store : List Appointment) (i : Nat) :
    ((acceptRoute connOk dbThrows store i).1.httpStatus = 200 ∨
     (acceptRoute connOk dbThrows store i).1.httpStatus = 404 ∨
     (acceptRoute connOk dbThrows store i).1.httpStatus = 500) ∧
    (connOk = false →
      (acceptRoute connOk dbThrows store i).1
        = ApiResult.serverError "Database connection failed") ∧
    (connOk = true → dbThrows = true →
      (acceptRoute connOk dbThrows store i).1
        = ApiResult.serverError "Failed to accept appointment") ∧
    (connOk = true → dbThrows = false → (∀ r ∈ store, r.id ≠ i) →
      (acceptRoute connOk dbThrows store i).1
        = ApiResult.notFound "Appointment not found") ∧
    (connOk = true → dbThrows = false → (∃ r ∈ store, r.id = i) →
      ∃ a, (acceptRoute connOk dbThrows store i).1 = ApiResult.okAppointment a) := by
  cases connOk with
  | false =>
    refine ⟨Or.inr (Or.inr (by simp [acceptRoute, ApiResult.httpStatus])),
      fun _ => by simp [acceptRoute],
      fun h => absurd h (by simp), fun h => absurd h (by simp),
      fun h => absurd h (by simp)⟩
  | true =>
    cases dbThrows with
    | true =>
      refine ⟨Or.inr (Or.inr (by simp [acceptRoute, acceptHandler, ApiResult.httpStatus])),
        fun h => absurd h (by simp),
        fun _ _ => by simp [acceptRoute, acceptHandler],
        fun _ h => absurd h (by simp), fun _ h => absurd h (by simp)⟩
    | false =>
      refine ⟨?_, fun h => absurd h (by simp), fun _ h => absurd h (by simp),
        fun _ _ h => ?_, fun _ _ h => ?_⟩
      · rcases hf : findByIdAndUpdate store i Status.accepted with ⟨fst, snd⟩
        cases fst with
        | none =>
          exact Or.inr (Or.inl (by
            simp [acceptRoute, acceptHandler, hf, ApiResult.httpStatus]))
        | some a =>
          exact Or.inl (by
            simp [acceptRoute, acceptHandler, hf, ApiResult.httpStatus])
      · simp [acceptRoute, acceptHandler,
          findByIdAndUpdate_of_not_mem store i Status.accepted h]
      · rcases hf : findByIdAndUpdate store i Status.accepted with ⟨fst, snd⟩
        cases fst with
        | none =>
          exfalso
          obtain ⟨r, hr, hid⟩ := h
          have := (findByIdAndUpdate_fst_eq_none store i Status.accepted).mp (by rw [hf])
          exact this r hr hid
        | some a =>
          exact ⟨a, by simp [acceptRoute, acceptHandler, hf]⟩

/-- C8 witness: each of the three outcome classes occurs at a concrete
input — connection failure, storage failure, missing id, and success. -/
theorem C8_outcome_mapping_witness :
    (acceptRoute false false [sampleA] 1).1
      = ApiResult.serverError "Database connection failed" ∧
    (acceptRoute true true [sampleA] 1).1
      = ApiResult.serverError "Failed to accept appointment" ∧
    (acceptRoute true false [sampleA] 5).1
      = ApiResult.notFound "Appointment not found" ∧
    ∃ a, (acceptRoute true false [sampleA] 1).1 = ApiResult.okAppointment a :=
  ⟨(C8_outcome_mapping false false [sampleA] 1).2.1 rfl,
   (C8_outcome_mapping true true [sampleA] 1).2.2.1 rfl rfl,
   (C8_outcome_mapping true false [sampleA] 5).2.2.2.1 rfl rfl (by decide),
   (C8_outcome_mapping true false [sampleA] 1).2.2.2.2 rfl rfl ⟨sampleA, by decide, by decide⟩⟩

end SaloonAdmin
